import Mathlib

/-
Verification development for the QAI agent execution engine.
Rust strings are modelled as lists of Unicode scalar values (`List Char`,
matching Rust `char`); byte-sensitive operations carry explicit UTF-8 byte
arithmetic via `Char.utf8Size`.  Fallible operations return `Except`/`Option`;
a Rust panic is modelled as `Option.none` of the operation's result.
-/

set_option maxRecDepth 100000

namespace QaiSpec

/-- Model of a Rust string: the sequence of Unicode scalar values. -/
abbrev RStr := List Char

/-- UTF-8 byte length of a string, matching Rust `str::len`. -/
def utf8Len (s : RStr) : Nat :=
  s.foldr (fun c acc => c.utf8Size + acc) 0

/-- Unicode White_Space property, matching Rust `char::is_whitespace`. -/
def rustIsWhitespace (c : Char) : Bool :=
  (c.val = 0x09) || (c.val = 0x0A) || (c.val = 0x0B) || (c.val = 0x0C) ||
  (c.val = 0x0D) || (c.val = 0x20) || (c.val = 0x85) || (c.val = 0xA0) ||
  (c.val = 0x1680) || (0x2000 ≤ c.val && c.val ≤ 0x200A) ||
  (c.val = 0x2028) || (c.val = 0x2029) || (c.val = 0x202F) ||
  (c.val = 0x205F) || (c.val = 0x3000)

/-- Rust `str::trim_start`. -/
def trimStart (s : RStr) : RStr := s.dropWhile rustIsWhitespace

/-- Rust `str::trim_end`. -/
def trimEnd (s : RStr) : RStr := (s.reverse.dropWhile rustIsWhitespace).reverse

/-- Rust `str::trim`. -/
def trim (s : RStr) : RStr := trimEnd (trimStart s)

/-- First index at which `pat` occurs as a contiguous substring of `hay`,
matching Rust `str::find` on a string pattern (empty pattern matches at 0). -/
def findSub (hay pat : RStr) : Option Nat :=
  if pat.isPrefixOf hay then some 0
  else
    match hay with
    | [] => none
    | _ :: t => (findSub t pat).map (· + 1)

/-- Rust `str::contains` on a string pattern. -/
def containsSub (hay pat : RStr) : Bool := (findSub hay pat).isSome

/-- Rust `str::strip_prefix` on a string pattern. -/
def stripPrefixStr (s pat : RStr) : Option RStr :=
  if pat.isPrefixOf s then some (s.drop pat.length) else none

/-- Rust `str::strip_suffix` on a string pattern. -/
def stripSuffixStr (s pat : RStr) : Option RStr :=
  if pat.reverse.isPrefixOf s.reverse then some (s.take (s.length - pat.length))
  else none

/-- Fuel-driven helper for `trimStartMatchesStr`; one unit of fuel per removed
occurrence (each removal drops at least one character, so `s.length` fuel is
always enough). -/
def trimStartMatchesAux : Nat → RStr → RStr → RStr
  | 0, s, _ => s
  | fuel + 1, s, pat =>
    if pat ≠ [] && pat.isPrefixOf s then
      trimStartMatchesAux fuel (s.drop pat.length) pat
    else s

/-- Rust `str::trim_start_matches` on a string pattern: repeatedly remove
the pattern from the front as long as it is a (nonempty) prefix. -/
def trimStartMatchesStr (s pat : RStr) : RStr :=
  trimStartMatchesAux s.length s pat

/-- Rust `str::trim_start_matches` on a char pattern. -/
def trimStartMatchesChar (s : RStr) (c : Char) : RStr :=
  s.dropWhile (· = c)

/-- Rust `str::trim_matches` on a char pattern (both ends, repeatedly). -/
def trimMatchesChar (s : RStr) (c : Char) : RStr :=
  ((s.dropWhile (· = c)).reverse.dropWhile (· = c)).reverse

/-- Split a list at every occurrence of `sep`, like Rust `str::split` with a
char separator: always returns at least one segment. -/
def splitChar (sep : Char) : RStr → List RStr
  | [] => [[]]
  | c :: t =>
    let rest := splitChar sep t
    if c = sep then [] :: rest
    else
      match rest with
      | [] => [[c]]
      | r :: rs => (c :: r) :: rs

/-- Rust `str::lines`: split on a char separator `\n`, strip a trailing `\r`
from each line, and do not yield a final empty line (so `""` has no lines and
a trailing newline adds no line). -/
def rustLines (s : RStr) : List RStr :=
  match s with
  | [] => []
  | _ =>
    let segs := splitChar '\n' s
    let segs := if s.getLast? = some '\n' then segs.dropLast else segs
    segs.map fun l => match stripSuffixStr l [ '\r' ] with
      | some l2 => l2
      | none => l

/-- Rust `str::split_once('\n')`. -/
def splitOnceNl (s : RStr) : Option (RStr × RStr) :=
  match findSub s [ '\n' ] with
  | none => none
  | some i => some (s.take i, s.drop (i + 1))

/-- Rust `str::splitn(2, '\n')` packaged as (first, optional rest). -/
def splitn2Nl (s : RStr) : RStr × Option RStr :=
  match findSub s [ '\n' ] with
  | none => (s, none)
  | some i => (s.take i, some (s.drop (i + 1)))

/-- Rust `str::splitn(3, '\n')` packaged as up to three segments. -/
def splitn3Nl (s : RStr) : RStr × Option RStr × Option RStr :=
  match splitn2Nl s with
  | (a, none) => (a, none, none)
  | (a, some rest) =>
    match splitn2Nl rest with
    | (b, none) => (a, some b, none)
    | (b, some c) => (a, some b, some c)

/-- Join lines with `'\n'`, matching `Vec::join("\n")`. -/
def joinNl (ls : List RStr) : RStr :=
  match ls with
  | [] => []
  | l :: rest => rest.foldl (fun acc x => acc ++ '\n' :: x) l

/-- Decimal rendering of a `Nat`, matching Rust `Display` for `usize`. -/
def natStr (n : Nat) : RStr := (Nat.repr n).toList

-- ── ReAct step types (agent/mod.rs) ──────────────────────────────────────────

/-- The `StepKind` enum of `agent/mod.rs`. -/
inductive StepKind where
  | thought : StepKind
  | toolCall (name input : RStr) : StepKind
  | observation (text : RStr) : StepKind
  | answer (text : RStr) : StepKind
deriving DecidableEq

/-- Which of the three recognised tags a position refers to. -/
inductive TagKind where
  | think : TagKind
  | tool : TagKind
  | answer : TagKind
deriving DecidableEq

def tagThink : RStr := ("think").toList

def tagTool : RStr := ("tool").toList

def tagAnswerName : RStr := ("answer").toList

def closeThink : RStr := ("</think>").toList

def closeTool : RStr := ("</tool>").toList

/-- `find_tag_start` of `agent/mod.rs`: position of the literal `<tag` prefix. -/
def findTagStart (text tag : RStr) : Option Nat :=
  findSub text ('<' :: tag)

/-- `extract_tag` of `agent/mod.rs`: body between the first `>` after the
opening `<tag` and the first `</tag>` in the whole text (refused when that
close lies before the end of the opening tag). -/
def extractTag (text tag : RStr) : Option RStr := do
  let start ← findSub text ('<' :: tag)
  let rel ← findSub (text.drop start) [ '>' ]
  let tagEnd := rel + start + 1
  let e ← findSub text ('<' :: '/' :: tag ++ [ '>' ])
  if e < tagEnd then none
  else some ((text.drop tagEnd).take (e - tagEnd))

/-- `extract_attr` of `agent/mod.rs`: value between `attr="` and the next `"`. -/
def extractAttr (text attr : RStr) : Option RStr := do
  let needle := attr ++ ('=' :: [Char.ofNat 34])
  let s0 ← findSub text needle
  let start := s0 + needle.length
  let rel ← findSub (text.drop start) [Char.ofNat 34]
  some ((text.drop start).take rel)

/-- `extract_attr_in` of `agent/mod.rs`: attribute inside the opening tag of
the first occurrence of `<tag`. -/
def extractAttrIn (text tag attr : RStr) : Option RStr := do
  let tagStart ← findSub text ('<' :: tag)
  let rel ← findSub (text.drop tagStart) [ '>' ]
  extractAttr ((text.drop tagStart).take rel) attr

/-- The earliest of the three tag positions, mirroring the
`min_by_key` over `[think_pos, tool_pos, answer_pos]` in `parse_steps`
(first element wins on ties, though ties are impossible). -/
def earliestTag (text : RStr) : Option (Nat × TagKind) :=
  let cands := [
    (findTagStart text tagThink).map (fun p => (p, TagKind.think)),
    (findTagStart text tagTool).map (fun p => (p, TagKind.tool)),
    (findTagStart text tagAnswerName).map (fun p => (p, TagKind.answer)) ]
  (cands.filterMap id).foldl
    (fun acc x =>
      match acc with
      | none => some x
      | some a => if x.1 < a.1 then some x else acc)
    none

/-- Tool step derived from a `<tool>` marker: the `name` attribute when
present, otherwise the first body line as the name (aborting on an empty
derived name) with the remainder as input. -/
def toolStepOf (text inner : RStr) : Option StepKind :=
  match extractAttrIn text tagTool (("name").toList) with
  | some nm => some (StepKind.toolCall nm (trim inner))
  | none =>
    let (l1, l2) := splitn2Nl (trim inner)
    let nm := trim l1
    let inp := trim (l2.getD [])
    if nm = [] then none else some (StepKind.toolCall nm inp)

/-- Fuel-indexed body of the `parse_steps` scan loop of `agent/mod.rs`.
Each iteration either terminates or advances past a closing tag, so any fuel
of at least `text.length` reproduces the Rust loop exactly. -/
def parseStepsAux : Nat → RStr → List StepKind
  | 0, _ => []
  | fuel + 1, text =>
    match earliestTag text with
    | none => []
    | some (_, TagKind.think) =>
      match extractTag text tagThink with
      | none => []
      | some _ =>
        match findSub text closeThink with
        | none => [StepKind.thought]
        | some e =>
          StepKind.thought :: parseStepsAux fuel (text.drop (e + closeThink.length))
    | some (_, TagKind.tool) =>
      match extractTag text tagTool with
      | none => []
      | some inner =>
        match toolStepOf text inner with
        | none => []
        | some st =>
          match findSub text closeTool with
          | none => [st]
          | some e =>
            st :: parseStepsAux fuel (text.drop (e + closeTool.length))
    | some (_, TagKind.answer) =>
      match extractTag text tagAnswerName with
      | none => []
      | some inner => [StepKind.answer (trim inner)]

/-- `parse_steps` of `agent/mod.rs`. -/
def parseSteps (text : RStr) : List StepKind :=
  parseStepsAux (text.length + 1) text

/-- `parse_step` of `agent/mod.rs` (first parsed step, used by tests). -/
def parseStep (text : RStr) : Option StepKind :=
  (parseSteps text).head?

-- ── Plain-text recovery (agent/mod.rs) ───────────────────────────────────────

/-- The `KNOWN_TOOLS` constant of `try_recover_plain_tool`. -/
def KNOWN_TOOLS : List RStr :=
  [("read_file").toList, ("write_file").toList, ("edit_file").toList,
   ("shell").toList, ("grep_search").toList, ("web_search").toList,
   ("git_status").toList, ("git_diff").toList, ("git_add").toList,
   ("git_commit").toList, ("git_log").toList]

/-- Inner tool loop of recovery pattern 2: first known tool whose
`tool:`/`tool :` form prefixes the (already trimmed) line; the input is the
line with leading copies of the tool name removed, then leading colons
removed, then trimmed. -/
def lineMatchTool (l : RStr) : Option StepKind :=
  KNOWN_TOOLS.findSome? fun tool =>
    if (tool ++ [ ':' ]).isPrefixOf l || (tool ++ (' ' :: [ ':' ])).isPrefixOf l then
      some (StepKind.toolCall tool
        (trim (trimStartMatchesChar (trimStartMatchesStr l tool) ':')))
    else none

/-- `try_recover_plain_tool` of `agent/mod.rs`. -/
def tryRecoverPlainTool (text : RStr) : Option StepKind :=
  let trimmed := trim text
  match rustLines trimmed with
  | [] => none
  | firstLine :: restLines =>
    let toolName := trim (trimMatchesChar (trim firstLine) (Char.ofNat 96))
    if KNOWN_TOOLS.contains toolName then
      some (StepKind.toolCall toolName (trim (joinNl restLines)))
    else
      (rustLines trimmed).findSome? fun line => lineMatchTool (trim line)

-- ── Display truncation (agent/mod.rs) ────────────────────────────────────────

/-- UTF-8 byte slicing `&s[..n]`: `none` when `n` is not a char boundary
(which makes the Rust expression panic). -/
def byteSplitAt : RStr → Nat → Option RStr
  | _, 0 => some []
  | [], _ + 1 => none
  | c :: t, n + 1 =>
    if c.utf8Size ≤ n + 1 then (byteSplitAt t (n + 1 - c.utf8Size)).map (c :: ·)
    else none

/-- The `truncate` helper of `agent/mod.rs`: `none` models the panic of
`&s[..max]` when byte `max` falls inside a multi-byte character. -/
def truncateRust (s : RStr) (max : Nat) : Option RStr :=
  if utf8Len s ≤ max then some s
  else
    match byteSplitAt s max with
    | some pre => some (pre ++ ("…(truncated)").toList)
    | none => none

-- ── JSON values (serde_json::Value) ──────────────────────────────────────────

/-- Model of `serde_json::Value`. -/
inductive Json where
  | jnull : Json
  | jbool (b : Bool) : Json
  | jnum (n : Int) : Json
  | jstr (s : RStr) : Json
  | jarr (xs : List Json) : Json
  | jobj (fields : List (RStr × Json)) : Json

/-- `serde_json` string indexing `v["k"]`: field of an object, else `Null`. -/
def jget (v : Json) (k : RStr) : Json :=
  match v with
  | Json.jobj fields =>
    match fields.lookup k with
    | some x => x
    | none => Json.jnull
  | _ => Json.jnull

/-- `serde_json` numeric indexing `v[i]`: array element, else `Null`. -/
def jidx (v : Json) (i : Nat) : Json :=
  match v with
  | Json.jarr xs => xs.getD i Json.jnull
  | _ => Json.jnull

/-- `Value::as_str`. -/
def jasStr : Json → Option RStr
  | Json.jstr s => some s
  | _ => none

/-- `Value::as_bool`. -/
def jasBool : Json → Option Bool
  | Json.jbool b => some b
  | _ => none

-- ── Tool environment (agent/tools.rs) ────────────────────────────────────────

/-- Filesystem model: an association of paths to contents, plus oracles for
the failure behaviour of `fs::create_dir_all` and `fs::write` (the OS can
refuse either, e.g. when a parent component is a regular file). -/
structure Fs where
  files : List (RStr × RStr)
  dirFail : RStr → Option RStr
  writeFail : RStr → RStr → Option RStr

/-- Environment for process spawning and the web: outcomes of
`Command::output` (program, args, optional working directory, yielding
stdout/stderr), of `reqwest::Client::builder().build()`, of the outbound
search request (keyed by the trimmed query; URL assembly is network I/O
detail), and of `serde_json::from_str`. -/
structure CmdEnv where
  runCmd : RStr → List RStr → Option RStr → Except RStr (RStr × RStr)
  clientBuild : Except RStr Unit
  webGet : RStr → Except RStr RStr
  parseJson : RStr → Option Json

/-- Association-list update used to model `fs::write` on the files map. -/
def updateAssoc : List (RStr × RStr) → RStr → RStr → List (RStr × RStr)
  | [], p, c => [(p, c)]
  | (q, d) :: t, p, c =>
    if q = p then (p, c) :: t else (q, d) :: updateAssoc t p c

/-- Model of `fs::write`: fails per the oracle, otherwise updates the map. -/
def writeFs (fs : Fs) (p c : RStr) : Except RStr Fs :=
  match fs.writeFail p c with
  | some e => Except.error e
  | none => Except.ok { fs with files := updateAssoc fs.files p c }

/-- Message used for a read of a missing file, modelling the OS error text. -/
def noSuchFileMsg : RStr := ("No such file or directory (os error 2)").toList

/-- Index of the last occurrence of a char. -/
def lastIdxOf (s : RStr) (c : Char) : Option Nat :=
  match findSub s.reverse [ c ] with
  | none => none
  | some r => some (s.length - 1 - r)

/-- Model of `Path::parent` adequate for the paths exercised here: `none` for
the root, the empty path for a single relative component, else everything
before the last separator. -/
def parentPath (p : RStr) : Option RStr :=
  if p = [ '/' ] then none
  else
    match lastIdxOf p '/' with
    | none => some []
    | some 0 => some [ '/' ]
    | some i => some (p.take i)

/-- Rust `str::replacen(search, repl, 1)`: replace the first occurrence. -/
def replaceFirst (hay pat rep : RStr) : RStr :=
  match findSub hay pat with
  | none => hay
  | some i => hay.take i ++ rep ++ hay.drop (i + pat.length)

/-- Rust `usize::from_str`: optional `+`, at least one digit, within range. -/
def parseUsize (s : RStr) : Option Nat :=
  let ds := match s with
    | '+' :: t => t
    | _ => s
  if !ds.isEmpty && ds.all Char.isDigit then
    let v := ds.foldl (fun a c => a * 10 + (c.toNat - 48)) 0
    if v < 2 ^ 64 then some v else none
  else none

-- ── Tool implementations (agent/tools.rs) ────────────────────────────────────

/-- `read_file` of `agent/tools.rs`: contents or an inline error, always Ok. -/
def readFileTool (fs : Fs) (path : RStr) : Except RStr RStr :=
  match fs.files.lookup (trim path) with
  | some c => Except.ok c
  | none =>
    Except.ok (("[read_file error: ").toList ++ noSuchFileMsg ++ ("]").toList)

/-- `shell` of `agent/tools.rs`: combined stdout+stderr, `(no output)` when
empty, inline error when the spawn fails. -/
def shellTool (env : CmdEnv) (cmd : RStr) : Except RStr RStr :=
  match env.runCmd (("sh").toList) [("-c").toList, cmd] none with
  | Except.ok (out, err) =>
    let combined := trim (out ++ err)
    Except.ok (if combined = [] then ("(no output)").toList else combined)
  | Except.error e =>
    Except.ok (("[shell error: ").toList ++ e ++ ("]").toList)

/-- `write_file` of `agent/tools.rs`.  Note the `?` on `create_dir_all`: a
directory-creation failure is the one path that escapes the
Ok-with-inline-error convention and propagates an `Err` out of the tool. -/
def writeFileTool (fs : Fs) (input : RStr) : (Except RStr RStr) × Fs :=
  let input := trimStart input
  match splitOnceNl input with
  | some (pathRaw, content) =>
    let path := trim pathRaw
    let dirStep : Except RStr Unit :=
      match parentPath path with
      | some parent =>
        if parent ≠ [] then
          match fs.dirFail parent with
          | some e =>
            Except.error (("[write_file error creating dirs: ").toList ++ e ++ ("]").toList)
          | none => Except.ok ()
        else Except.ok ()
      | none => Except.ok ()
    match dirStep with
    | Except.error e => (Except.error e, fs)
    | Except.ok () =>
      match writeFs fs path content with
      | Except.ok fs2 =>
        (Except.ok (("[write_file: wrote ").toList ++ natStr (utf8Len content) ++
          (" bytes to ").toList ++ path ++ ("]").toList), fs2)
      | Except.error e =>
        (Except.ok (("[write_file error: ").toList ++ e ++ ("]").toList), fs)
  | none =>
    (Except.ok (("[write_file error: input must be \x27<path>\\n<content>\x27]").toList), fs)

/-- `edit_file` of `agent/tools.rs`: parse the search/replace marker grammar,
replace the first occurrence of the search text, inline errors otherwise. -/
def editFileTool (fs : Fs) (input : RStr) : (Except RStr RStr) × Fs :=
  let input := trimStart input
  let (pathRaw, restOpt) := splitn2Nl input
  let path := trim pathRaw
  let rest := restOpt.getD []
  match stripPrefixStr rest (("<<<\n").toList) with
  | none =>
    (Except.ok (("[edit_file error: input must start with path then \x27<<<\x27]").toList), fs)
  | some afterOpen =>
    match findSub afterOpen (("\n===\n").toList) with
    | none =>
      (Except.ok (("[edit_file error: missing \x27===\x27 separator]").toList), fs)
    | some mid =>
      let search := afterOpen.take mid
      let afterEq := afterOpen.drop (mid + 5)
      let repl :=
        match stripSuffixStr afterEq (("\n>>>").toList) with
        | some r => r
        | none =>
          match stripSuffixStr afterEq ((">>>").toList) with
          | some r => r
          | none => afterEq
      match fs.files.lookup path with
      | none =>
        (Except.ok (("[edit_file error reading ").toList ++ path ++ (": ").toList ++
          noSuchFileMsg ++ ("]").toList), fs)
      | some original =>
        if containsSub original search then
          let updated := replaceFirst original search repl
          match writeFs fs path updated with
          | Except.ok fs2 =>
            (Except.ok (("[edit_file: applied edit to ").toList ++ path ++ ("]").toList), fs2)
          | Except.error e =>
            (Except.ok (("[edit_file error writing ").toList ++ path ++ (": ").toList ++
              e ++ ("]").toList), fs)
        else
          (Except.ok (("[edit_file error: search string not found in ").toList ++
            path ++ ("]").toList), fs)

/-- `git_run` of `agent/tools.rs`. -/
def gitRun (env : CmdEnv) (args : List RStr) (workdir : RStr) : Except RStr RStr :=
  let wd := trim workdir
  let cwd := if wd = [] then none else some wd
  match env.runCmd (("git").toList) args cwd with
  | Except.ok (out, err) =>
    let combined := trim (out ++ err)
    Except.ok (if combined = [] then ("(no output)").toList else combined)
  | Except.error e =>
    Except.ok (("[git error: ").toList ++ e ++ ("]").toList)

/-- `git_status` of `agent/tools.rs`. -/
def gitStatusTool (env : CmdEnv) (input : RStr) : Except RStr RStr :=
  gitRun env [("status").toList, ("--short").toList] input

/-- `git_diff` of `agent/tools.rs`. -/
def gitDiffTool (env : CmdEnv) (input : RStr) : Except RStr RStr :=
  let arg := trim input
  if arg = [] then gitRun env [("diff").toList] []
  else gitRun env [("diff").toList, arg] []

/-- `git_add` of `agent/tools.rs`. -/
def gitAddTool (env : CmdEnv) (input : RStr) : Except RStr RStr :=
  let arg := trim input
  if arg = [] then
    Except.ok (("[git_add error: provide path(s) to stage, e.g. \x27.\x27 or \x27src/main.rs\x27]").toList)
  else gitRun env [("add").toList, arg] []

/-- `git_commit` of `agent/tools.rs`. -/
def gitCommitTool (env : CmdEnv) (input : RStr) : Except RStr RStr :=
  let msg := trim input
  if msg = [] then
    Except.ok (("[git_commit error: commit message must not be empty]").toList)
  else gitRun env [("commit").toList, ("-m").toList, msg] []

/-- `git_log` of `agent/tools.rs`. -/
def gitLogTool (env : CmdEnv) (input : RStr) : Except RStr RStr :=
  let n := (parseUsize (trim input)).getD 10
  gitRun env [("log").toList, ("--oneline").toList, '-' :: natStr n] []

/-- `grep_search` of `agent/tools.rs`. -/
def grepSearchTool (env : CmdEnv) (input : RStr) : Except RStr RStr :=
  let input := trimStart input
  let (l1, l2, l3) := splitn3Nl input
  let pattern := trim l1
  let path0 := trim (l2.getD ((".").toList))
  let path := if path0 = [] then (".").toList else path0
  let glob := trim (l3.getD [])
  if pattern = [] then
    Except.ok (("[grep_search error: pattern must not be empty]").toList)
  else
    let args := [("-rn").toList, ("--color=never").toList, pattern, path] ++
      (if glob = [] then [] else [("--include=").toList ++ glob])
    match env.runCmd (("grep").toList) args none with
    | Except.ok (out, err) =>
      let stdout := trim out
      let stderr := trim err
      if stderr ≠ [] then
        Except.ok (("[grep_search error: ").toList ++ stderr ++ ("]").toList)
      else if stdout = [] then
        Except.ok (("[grep_search: no matches found]").toList)
      else
        let ls := rustLines stdout
        let first := ls.take 200
        let marker := if first.length < ls.length then
            ("\n[... output truncated to 200 lines]").toList
          else []
        Except.ok (joinNl first ++ marker)
    | Except.error e =>
      Except.ok (("[grep_search error: ").toList ++ e ++ ("]").toList)

/-- `web_search` of `agent/tools.rs`.  Note the `?` on building the HTTP
client, a second (theoretical) propagation path out of a tool. -/
def webSearchTool (env : CmdEnv) (query : RStr) : Except RStr RStr :=
  match env.clientBuild with
  | Except.error e => Except.error e
  | Except.ok () =>
    match env.webGet (trim query) with
    | Except.ok text =>
      match env.parseJson text with
      | some v =>
        let abs := trim ((jasStr (jget v (("AbstractText").toList))).getD [])
        if abs ≠ [] then Except.ok abs
        else
          let ans := trim ((jasStr (jget v (("Answer").toList))).getD [])
          if ans ≠ [] then Except.ok ans
          else Except.ok (("[web_search: no result found]").toList)
      | none => Except.ok (("[web_search: no result found]").toList)
    | Except.error e =>
      Except.ok (("[web_search error: ").toList ++ e ++ ("]").toList)

/-- `dispatch` of `agent/tools.rs`: route a tool name to its implementation;
unknown names produce an inline string, and the reserved name `answer`
produces the sentinel-prefixed string. -/
def dispatch (fs : Fs) (env : CmdEnv) (tool input : RStr) : (Except RStr RStr) × Fs :=
  if tool = ("read_file").toList then (readFileTool fs input, fs)
  else if tool = ("write_file").toList then writeFileTool fs input
  else if tool = ("edit_file").toList then editFileTool fs input
  else if tool = ("git_status").toList then (gitStatusTool env input, fs)
  else if tool = ("git_diff").toList then (gitDiffTool env input, fs)
  else if tool = ("git_add").toList then (gitAddTool env input, fs)
  else if tool = ("git_commit").toList then (gitCommitTool env input, fs)
  else if tool = ("git_log").toList then (gitLogTool env input, fs)
  else if tool = ("shell").toList then (shellTool env input, fs)
  else if tool = ("grep_search").toList then (grepSearchTool env input, fs)
  else if tool = ("web_search").toList then (webSearchTool env input, fs)
  else if tool = ("answer").toList then
    (Except.ok (("__AGENT_ANSWER__:").toList ++ input), fs)
  else
    (Except.ok (("[unknown tool: ").toList ++ tool ++ ("]").toList), fs)

-- ── Agent loop (ReActAgent::run, agent/mod.rs) ───────────────────────────────

def roleUser : RStr := ("user").toList

def roleAssistant : RStr := ("assistant").toList

def stepHeaderMsg (n : Nat) : RStr :=
  ("\n---\n🔄 **Step ").toList ++ natStr n ++ ("**\n").toList

def recoverNoteMsg : RStr :=
  ("⚠️ *Model ignored XML format — auto-recovering tool call.*\n").toList

def thoughtMsg (t : RStr) : RStr :=
  ("💭 **Thought:** ").toList ++ t ++ ("\n\n").toList

def plainThoughtMsg (t : RStr) : RStr :=
  ("💭 ").toList ++ t ++ ("\n\n").toList

def toolHeaderMsg (name t : RStr) : RStr :=
  ("🔧 **Tool `").toList ++ name ++ ("`:** `").toList ++ t ++ ("`\n").toList

def obsEventMsg (t : RStr) : RStr :=
  ("👁 **Observation:**\n```\n").toList ++ t ++ ("\n```\n\n").toList

def answerEventMsg (a : RStr) : RStr :=
  ("\n✅ **Answer:**\n").toList ++ a ++ ("\n").toList

def maxStepsNotice : RStr :=
  ("\n⚠️ **Max steps reached.** Stopping agent loop.\n").toList

def nudgeMsg : RStr :=
  ("STOP. You must now output a tool call or answer using XML tags. Example of correct format:\n<think>I will read the file.</think>\n<tool name=\"read_file\">README.md</tool>\nDo NOT write plain text. Use the XML tags exactly as shown.").toList

/-- How the run loop terminated.  A Rust panic (possible in the display
`truncate`) is its own terminal token. -/
inductive Outcome where
  | answered : Outcome
  | exhausted : Outcome
  | rawPassthrough : Outcome
  | panicked : Outcome
deriving DecidableEq

/-- Result of walking the parsed steps of one model response: the channel
events emitted, the updated history, whether an Answer ended the response,
and whether a display-truncation panic aborted the walk. -/
structure WalkRes where
  events : List (Option RStr)
  history : List (RStr × RStr)
  finished : Bool
  panicked : Bool

/-- The `for parsed_step in steps` walk inside `ReActAgent::run`: renders
thoughts, dispatches tool calls (appending observations to history), and on
an Answer renders it, sends the terminator and stops. -/
def walkSteps (disp : RStr → RStr → Except RStr RStr) :
    List StepKind → RStr → List (RStr × RStr) → WalkRes
  | [], _, hist => ⟨[], hist, false, false⟩
  | StepKind.thought :: rest, rem, hist =>
    (match extractTag rem tagThink with
    | some inner =>
      let rem2 :=
        match findSub rem closeThink with
        | some e => rem.drop (e + closeThink.length)
        | none => rem
      let r := walkSteps disp rest rem2 hist
      ⟨some (thoughtMsg (trim inner)) :: r.events, r.history, r.finished, r.panicked⟩
    | none => walkSteps disp rest rem hist)
  | StepKind.toolCall nm inp :: rest, rem, hist =>
    (match truncateRust inp 120 with
    | none => ⟨[], hist, false, true⟩
    | some t1 =>
      let ev1 : Option RStr := some (toolHeaderMsg nm t1)
      let obs :=
        match disp nm inp with
        | Except.ok s => s
        | Except.error e => ("[error: ").toList ++ e ++ ("]").toList
      match truncateRust obs 800 with
      | none => ⟨[ev1], hist, false, true⟩
      | some t2 =>
        let hist2 := hist ++
          [(roleUser, ("<observation>").toList ++ obs ++ ("</observation>").toList)]
        let rem2 :=
          match findSub rem closeTool with
          | some e => rem.drop (e + closeTool.length)
          | none => rem
        let r := walkSteps disp rest rem2 hist2
        ⟨ev1 :: some (obsEventMsg t2) :: r.events, r.history, r.finished, r.panicked⟩)
  | StepKind.answer a :: _, _, hist =>
    ⟨[some (answerEventMsg a), none], hist, true, false⟩
  | StepKind.observation _ :: rest, rem, hist => walkSteps disp rest rem hist

/-- Result of one whole `run`: events sent over the channel in order, final
history, number of model round-trips, and terminal outcome. -/
structure RunResult where
  events : List (Option RStr)
  history : List (RStr × RStr)
  calls : Nat
  outcome : Outcome

/-- The `unwrap_or_else` around `call_llm`: a transport failure becomes a
synthetic answer wrapping the error text. -/
def synthResp : Except RStr RStr → RStr
  | Except.ok s => s
  | Except.error e => ("<answer>[LLM error: ").toList ++ e ++ ("]</answer>").toList

/-- Structured parse then plain-text recovery: the steps to execute plus any
recovery notice, or `none` when both tiers fail (raw passthrough). -/
def stepsAndNote (resp : RStr) : Option (List StepKind × List (Option RStr)) :=
  if (parseSteps resp).isEmpty then
    match tryRecoverPlainTool resp with
    | some rc => some ([rc], [some recoverNoteMsg])
    | none => none
  else some (parseSteps resp, [])

/-- Whether a parsed response contains a tool call or an answer. -/
def hasAction (steps : List StepKind) : Bool :=
  steps.any fun s =>
    match s with
    | StepKind.toolCall _ _ => true
    | StepKind.answer _ => true
    | _ => false

/-- Rendering of a stalled (think-only) response: the think body when one
extracts, otherwise the whole trimmed response. -/
def thinkEvOf (resp : RStr) : RStr :=
  match extractTag resp tagThink with
  | some inner => thoughtMsg (trim inner)
  | none => plainThoughtMsg (trim resp)

/-- The `for step in 0..self.max_steps` loop of `ReActAgent::run`, with the
model call abstracted to an oracle indexed by the step number and tool
dispatch abstracted to a function (instantiated with `dispatch` below where
a claim needs the real registry). -/
def runLoop (oracle : Nat → Except RStr RStr) (disp : RStr → RStr → Except RStr RStr) :
    Nat → Nat → List (RStr × RStr) → RunResult
  | 0, _, hist => ⟨[some maxStepsNotice, none], hist, 0, Outcome.exhausted⟩
  | fuel + 1, idx, hist =>
    let ev0 : Option RStr := some (stepHeaderMsg (idx + 1))
    let resp := synthResp (oracle idx)
    match stepsAndNote resp with
    | none =>
      ⟨[ev0, some resp, none], hist ++ [(roleAssistant, resp)], 1, Outcome.rawPassthrough⟩
    | some (steps, pre) =>
      let hist1 := hist ++ [(roleAssistant, resp)]
      if hasAction steps then
        let w := walkSteps disp steps resp hist1
        if w.panicked then ⟨ev0 :: pre ++ w.events, w.history, 1, Outcome.panicked⟩
        else if w.finished then ⟨ev0 :: pre ++ w.events, w.history, 1, Outcome.answered⟩
        else
          let r := runLoop oracle disp fuel (idx + 1) w.history
          ⟨ev0 :: pre ++ w.events ++ r.events, r.history, r.calls + 1, r.outcome⟩
      else
        let r := runLoop oracle disp fuel (idx + 1) (hist1 ++ [(roleUser, nudgeMsg)])
        ⟨ev0 :: pre ++ some (thinkEvOf resp) :: r.events, r.history, r.calls + 1, r.outcome⟩

/-- `MAX_STEPS` of `agent/mod.rs`. -/
def MAX_STEPS : Nat := 15

/-- `ReActAgent::run`: seed history from prior turns (dropping a user turn
that duplicates the task), append the task, then iterate the step loop. -/
def runModel (maxSteps : Nat) (oracle : Nat → Except RStr RStr)
    (disp : RStr → RStr → Except RStr RStr)
    (task : RStr) (prior : List (RStr × RStr)) : RunResult :=
  let hist0 := prior.filter fun rc => !(rc.1 == roleUser && rc.2 == task)
  runLoop oracle disp maxSteps 0 (hist0 ++ [(roleUser, task)])

/-- Number of terminator (`None`) values among the channel events. -/
def countNone (evs : List (Option RStr)) : Nat :=
  evs.countP fun e => e.isNone

-- ── Streaming consumer (stream_message, tui/api.rs) ──────────────────────────

def sseDataTag : RStr := ("data: ").toList

def doneLit : RStr := ("[DONE]").toList

/-- Token events one parsed line contributes: a non-empty OpenAI-style
`choices[0].delta.content`, else a non-empty Ollama-style `message.content`,
else nothing. -/
def lineToks (v : Json) : List (Option RStr) :=
  match jasStr (jget (jget (jidx (jget v (("choices").toList)) 0)
      (("delta").toList)) (("content").toList)) with
  | some delta => if delta = [] then [] else [some delta]
  | none =>
    match jasStr (jget (jget v (("message").toList)) (("content").toList)) with
    | some delta => if delta = [] then [] else [some delta]
    | none => []

/-- Line loop of the OpenAI-compatible/Ollama branch of `stream_message`:
strip an SSE `data: ` prefix when present (skipping `[DONE]`), skip empty and
non-JSON lines, emit the line's tokens, and on a true `done` field send the
terminator and stop (the `Bool` is the stop flag of the early `return`). -/
def procLines (parse : RStr → Option Json) : List RStr → (List (Option RStr) × Bool)
  | [] => ([], false)
  | line :: rest =>
    let dataOpt : Option RStr :=
      match stripPrefixStr line sseDataTag with
      | some d => if d = doneLit then none else some d
      | none => some line
    match dataOpt with
    | none => procLines parse rest
    | some data =>
      if data = [] then procLines parse rest
      else
        match parse data with
        | none => procLines parse rest
        | some v =>
          if (jasBool (jget v (("done").toList))).getD false then
            (lineToks v ++ [none], true)
          else
            let (evs, stop) := procLines parse rest
            (lineToks v ++ evs, stop)

/-- Chunk loop of the OpenAI-compatible/Ollama branch of `stream_message`:
each chunk's text is processed line by line; a `done` line terminates, and
stream end sends the terminator. -/
def streamConsume (parse : RStr → Option Json) : List RStr → List (Option RStr)
  | [] => [none]
  | chunk :: rest =>
    let (evs, stop) := procLines parse (rustLines chunk)
    if stop then evs else evs ++ streamConsume parse rest

/-- Line loop of the Anthropic branch of `stream_message`: only `data: `
lines are considered, `[DONE]` breaks out of the current chunk's lines, and
`delta.text` fields are emitted (without an emptiness check). -/
def procLinesAnthropic (parse : RStr → Option Json) : List RStr → List (Option RStr)
  | [] => []
  | line :: rest =>
    match stripPrefixStr line sseDataTag with
    | some d =>
      if d = doneLit then []
      else
        (match parse d with
        | some v =>
          (match jasStr (jget (jget v (("delta").toList)) (("text").toList)) with
           | some delta => [some delta]
           | none => []) ++ procLinesAnthropic parse rest
        | none => procLinesAnthropic parse rest)
    | none => procLinesAnthropic parse rest

/-- Chunk loop of the Anthropic branch of `stream_message`. -/
def streamConsumeAnthropic (parse : RStr → Option Json) : List RStr → List (Option RStr)
  | [] => [none]
  | chunk :: rest =>
    procLinesAnthropic parse (rustLines chunk) ++ streamConsumeAnthropic parse rest

-- ── Decidability helpers and concrete environments ───────────────────────────

/-- Decidable equality for `Except`, needed to evaluate dispatch results. -/
def exceptDecEq {ε α : Type} [DecidableEq ε] [DecidableEq α] :
    (a b : Except ε α) → Decidable (a = b)
  | Except.ok x, Except.ok y =>
    if h : x = y then isTrue (by rw [h]) else isFalse (by intro hh; cases hh; exact h rfl)
  | Except.error x, Except.error y =>
    if h : x = y then isTrue (by rw [h]) else isFalse (by intro hh; cases hh; exact h rfl)
  | Except.ok _, Except.error _ => isFalse (by intro hh; cases hh)
  | Except.error _, Except.ok _ => isFalse (by intro hh; cases hh)

instance {ε α : Type} [DecidableEq ε] [DecidableEq α] : DecidableEq (Except ε α) :=
  exceptDecEq

/-- A filesystem with no files where every OS operation succeeds. -/
def fsTriv : Fs := ⟨[], fun _ => none, fun _ _ => none⟩

/-- A filesystem over the given files where every OS operation succeeds. -/
def fsOf (files : List (RStr × RStr)) : Fs := ⟨files, fun _ => none, fun _ _ => none⟩

/-- A command environment where every spawn and web request fails cleanly. -/
def envTriv : CmdEnv :=
  ⟨fun _ _ _ => Except.error [], Except.ok (), fun _ => Except.error [], fun _ => none⟩

/-- The real tool registry over the trivial environment, as the dispatch
function of the agent loop. -/
def dispReal : RStr → RStr → Except RStr RStr :=
  fun n i => (dispatch fsTriv envTriv n i).1

-- ── Claim C1 ─────────────────────────────────────────────────────────────────

/-- A model that always wraps its final answer in the reserved tool name. -/
def oracleC1 : Nat → Except RStr RStr :=
  fun _ => Except.ok (("<tool name=\"answer\">Done</tool>").toList)

/-- Claim C1 (code bug): `dispatch` does return the sentinel-prefixed string
`__AGENT_ANSWER__:Done` for `<tool name="answer">Done</tool>`, but `run`
never checks for that sentinel: the sentinel string is rendered as an
ordinary observation, no Answer is rendered, and the loop keeps going until
the budget is exhausted, contradicting the spec and the repository's own
test comment that the run loop converts it. -/
theorem C1_answer_sentinel_not_recognized :
    (dispatch fsTriv envTriv (("answer").toList) (("Done").toList)).1 =
      Except.ok (("__AGENT_ANSWER__:Done").toList) ∧
    (runModel 15 oracleC1 dispReal (("task").toList) []).outcome = Outcome.exhausted ∧
    (runModel 15 oracleC1 dispReal (("task").toList) []).calls = 15 ∧
    (runModel 15 oracleC1 dispReal (("task").toList) []).events.contains
      (some (obsEventMsg (("__AGENT_ANSWER__:Done").toList))) = true ∧
    (runModel 15 oracleC1 dispReal (("task").toList) []).events.contains
      (some (answerEventMsg (("Done").toList))) = false := by
  refine ⟨rfl, by decide, by decide, by decide, by decide⟩

-- ── Claim C2 ─────────────────────────────────────────────────────────────────

/-- Tool input whose 120th byte falls inside a two-byte character. -/
def inputC2 : RStr := List.replicate 119 'a' ++ [ 'é' ]

/-- A model response carrying that input in a shell tool call. -/
def respC2 : RStr :=
  ("<tool name=\"shell\">").toList ++ inputC2 ++ ("</tool>").toList

/-- Claim C2 (code bug): the display `truncate` slices at a raw byte index,
so rendering the tool call of `respC2` panics (`&s[..120]` lands inside the
two-byte `é`), and one iteration of the run loop aborts with a panic instead
of degrading gracefully. -/
theorem C2_truncate_panics_on_multibyte :
    truncateRust inputC2 120 = none ∧
    (runModel 15 (fun _ => Except.ok respC2) dispReal (("task").toList) []).outcome =
      Outcome.panicked := by
  exact ⟨by decide, by decide⟩

-- ── Claim C3 ─────────────────────────────────────────────────────────────────

/-- A filesystem where creating directory `a` fails (for example because `a`
is an existing regular file). -/
def fsBad : Fs :=
  ⟨[], fun p => if p = ("a").toList then some (("Not a directory (os error 20)").toList)
    else none,
   fun _ _ => none⟩

/-- Claim C3 (code bug): `dispatch` is not total at the API level — the `?`
on `create_dir_all` inside `write_file` propagates an `Err` out of dispatch
when parent-directory creation fails, even though the error text is already
formatted in the bracketed inline-observation style; `read_file` shows the
intended convention by wrapping its failure inline. -/
theorem C3_write_file_propagates_error :
    (dispatch fsBad envTriv (("write_file").toList) (("a/b\nhello").toList)).1 =
      Except.error (("[write_file error creating dirs: Not a directory (os error 20)]").toList) ∧
    (dispatch fsBad envTriv (("read_file").toList) (("nope.txt").toList)).1 =
      Except.ok (("[read_file error: No such file or directory (os error 2)]").toList) := by
  exact ⟨rfl, rfl⟩

-- ── Claim C4 ─────────────────────────────────────────────────────────────────

/-- A `findSome?` over a list whose first hit is `l` evaluates to `f l`. -/
theorem findSome?_first {α β : Type} (f : α → Option β) :
    ∀ (pre : List α) (l : α) (post : List α),
      (∀ x ∈ pre, f x = none) → f l ≠ none →
      (pre ++ l :: post).findSome? f = f l := by
  intro pre
  induction pre with
  | nil =>
    intro l post _ hl
    cases h : f l with
    | none => exact absurd h hl
    | some b => simp [List.findSome?, h]
  | cons x t ih =>
    intro l post hpre hl
    have hx : f x = none := hpre x (by simp)
    simp only [List.cons_append, List.findSome?, hx]
    exact ih l post (fun y hy => hpre y (by simp [hy])) hl

/-- Characterization of the inner tool loop of recovery pattern 2: whenever
it yields a call, the tool is known, the guard held, and the input follows
the strip-name-then-strip-colons-then-trim formula of the code. -/
theorem lineMatchAux :
    ∀ (ts : List RStr) (l t inp : RStr),
      (ts.findSome? fun tool =>
        if ((tool ++ [ ':' ]).isPrefixOf l || (tool ++ (' ' :: [ ':' ])).isPrefixOf l) then
          some (StepKind.toolCall tool
            (trim (trimStartMatchesChar (trimStartMatchesStr l tool) ':')))
        else none) = some (StepKind.toolCall t inp) →
      t ∈ ts ∧
      inp = trim (trimStartMatchesChar (trimStartMatchesStr l t) ':') ∧
      ((t ++ [ ':' ]).isPrefixOf l || (t ++ (' ' :: [ ':' ])).isPrefixOf l) = true := by
  intro ts
  induction ts with
  | nil => intro l t inp h; simp [List.findSome?] at h
  | cons x rest ih =>
    intro l t inp h
    by_cases hc : ((x ++ [ ':' ]).isPrefixOf l || (x ++ (' ' :: [ ':' ])).isPrefixOf l) = true
    · simp only [List.findSome?, hc, if_true] at h
      injection h with h1
      injection h1 with hn hi
      subst hn
      exact ⟨by simp, hi.symm, hc⟩
    · simp only [List.findSome?, hc, if_false] at h
      obtain ⟨hmem, hrest⟩ := ih l t inp h
      exact ⟨by simp [hmem], hrest⟩

/-- Claim C4 counterexample: on the line `shell : ls -la` the recovery keeps
the leading colon — the input is `: ls -la`, not the claimed `ls -la`. -/
theorem C4_counterexample :
    tryRecoverPlainTool (("shell : ls -la").toList) =
      some (StepKind.toolCall (("shell").toList) ((": ls -la").toList)) ∧
    ((": ls -la").toList ≠ (("ls -la").toList)) := by
  exact ⟨by decide, by decide⟩

/-- Claim C4 (amended): when the first-line heuristic does not fire and `l`
is the first line (of the trimmed text) matched by the `tool:`/`tool :`
heuristic, the recovery returns exactly that line's match; and any such
match names a known tool whose input is the line with leading copies of the
tool name stripped, then leading colons stripped, then trimmed (so the
`tool :` form keeps the colon that follows the space). -/
theorem C4_amended_plain_recovery :
    (∀ (text firstLine : RStr) (restLines pre lpost : List RStr) (l : RStr),
      rustLines (trim text) = firstLine :: restLines →
      KNOWN_TOOLS.contains (trim (trimMatchesChar (trim firstLine) (Char.ofNat 96))) = false →
      rustLines (trim text) = pre ++ l :: lpost →
      (∀ x ∈ pre, lineMatchTool (trim x) = none) →
      lineMatchTool (trim l) ≠ none →
      tryRecoverPlainTool text = lineMatchTool (trim l)) ∧
    (∀ (l t inp : RStr), lineMatchTool l = some (StepKind.toolCall t inp) →
      t ∈ KNOWN_TOOLS ∧
      inp = trim (trimStartMatchesChar (trimStartMatchesStr l t) ':') ∧
      ((t ++ [ ':' ]).isPrefixOf l || (t ++ (' ' :: [ ':' ])).isPrefixOf l) = true) := by
  constructor
  · intro text firstLine restLines pre lpost l h1 h2 h3 h4 h5
    have h13 : firstLine :: restLines = pre ++ l :: lpost := h1.symm.trans h3
    simp only [tryRecoverPlainTool, h1, h2, Bool.false_eq_true, if_false]
    rw [h13]
    exact findSome?_first (fun line => lineMatchTool (trim line)) pre l lpost h4 h5
  · intro l t inp h
    exact lineMatchAux KNOWN_TOOLS l t inp h

/-- Claim C4 amended witness: the amended statement applied to the concrete
line `shell : ls -la`. -/
theorem C4_amended_witness :
    tryRecoverPlainTool (("shell : ls -la").toList) =
      lineMatchTool (trim (("shell : ls -la").toList)) :=
  C4_amended_plain_recovery.1 (("shell : ls -la").toList) (("shell : ls -la").toList)
    [] [] [] (("shell : ls -la").toList)
    (by decide) (by decide) (by decide)
    (by intro x hx; exact absurd hx (List.not_mem_nil x))
    (by decide)

-- ── Claim C5 ─────────────────────────────────────────────────────────────────

/-- Positional helper: the empty list has no answer anywhere. -/
theorem nilCase_last : ∀ (l₁ : List StepKind) (a : RStr) (l₂ : List StepKind),
    ([] : List StepKind) = l₁ ++ StepKind.answer a :: l₂ → l₂ = [] := by
  intro l₁ a l₂ h
  cases l₁ <;> simp at h

/-- Positional helper: in a one-element list any answer is last. -/
theorem singleStep_last (st : StepKind) :
    ∀ (l₁ : List StepKind) (a : RStr) (l₂ : List StepKind),
      [st] = l₁ ++ StepKind.answer a :: l₂ → l₂ = [] := by
  intro l₁ a l₂ h
  cases l₁ with
  | nil => injection h with h1 h2; exact h2.symm
  | cons x t =>
    injection h with h1 h2
    cases t <;> simp at h2

/-- Positional helper: prepending a non-answer step preserves answers-last. -/
theorem stepNotAnswer_cons (st : StepKind) (hna : ∀ a, st ≠ StepKind.answer a)
    (l : List StepKind)
    (hl : ∀ (l₁ : List StepKind) (a : RStr) (l₂ : List StepKind),
      l = l₁ ++ StepKind.answer a :: l₂ → l₂ = []) :
    ∀ (l₁ : List StepKind) (a : RStr) (l₂ : List StepKind),
      st :: l = l₁ ++ StepKind.answer a :: l₂ → l₂ = [] := by
  intro l₁ a l₂ h
  cases l₁ with
  | nil => injection h with h1 h2; exact absurd h1 (hna a)
  | cons x t => injection h with h1 h2; exact hl t a l₂ h2

/-- A tool step is always a `toolCall`. -/
theorem toolStepOf_shape (text inner : RStr) (st : StepKind)
    (h : toolStepOf text inner = some st) :
    ∃ nm inp, st = StepKind.toolCall nm inp := by
  unfold toolStepOf at h
  split at h
  · injection h with h1; exact ⟨_, _, h1.symm⟩
  · simp only at h
    split at h
    · cases h
    · injection h with h1; exact ⟨_, _, h1.symm⟩

/-- An answer emitted by the parse loop is always the last step. -/
theorem parseStepsAux_answer_last :
    ∀ (fuel : Nat) (text : RStr) (l₁ : List StepKind) (a : RStr) (l₂ : List StepKind),
      parseStepsAux fuel text = l₁ ++ StepKind.answer a :: l₂ → l₂ = [] := by
  intro fuel
  induction fuel with
  | zero =>
    intro text l₁ a l₂ h
    simp only [parseStepsAux] at h
    exact nilCase_last l₁ a l₂ h
  | succ n ih =>
    intro text l₁ a l₂ h
    simp only [parseStepsAux] at h
    split at h
    · exact nilCase_last l₁ a l₂ h
    · -- think marker
      split at h
      · exact nilCase_last l₁ a l₂ h
      · split at h
        · exact singleStep_last _ l₁ a l₂ h
        · exact stepNotAnswer_cons StepKind.thought (fun a' hh => by cases hh) _
            (fun p a' q hh => ih _ p a' q hh) l₁ a l₂ h
    · -- tool marker
      split at h
      · exact nilCase_last l₁ a l₂ h
      · rename_i inner
        split at h
        · exact nilCase_last l₁ a l₂ h
        · rename_i st hst
          obtain ⟨nm, inp, rfl⟩ := toolStepOf_shape _ _ st hst
          split at h
          · exact singleStep_last _ l₁ a l₂ h
          · exact stepNotAnswer_cons (StepKind.toolCall nm inp) (fun a' hh => by cases hh) _
              (fun p a' q hh => ih _ p a' q hh) l₁ a l₂ h
    · -- answer marker
      split at h
      · exact nilCase_last l₁ a l₂ h
      · exact singleStep_last _ l₁ a l₂ h

/-- Claim C5 counterexample: the input contains the well-formed marker
`<answer>ok</answer>`, yet `parse_steps` returns the empty sequence because
the earlier `<think>` marker has no closing tag and aborts the scan, so the
last element is not `Answer("ok")`. -/
theorem C5_counterexample :
    (("<think>oops <answer>ok</answer>").toList =
      ("<think>oops ").toList ++ ("<answer>").toList ++ ("ok").toList ++ ("</answer>").toList) ∧
    parseSteps (("<think>oops <answer>ok</answer>").toList) = [] := by
  exact ⟨by decide, by decide⟩

/-- Claim C5 (amended): an `Answer` step returned by `parse_steps` is always
the last element (no markers after it are parsed); and when the scan reaches
the answer marker directly — it is the earliest marker and well formed — the
result is exactly `[Answer (trim X)]`.  An unterminated earlier marker can
keep the scan from ever reaching a well-formed answer marker. -/
theorem C5_amended_answer_terminates :
    (∀ (text : RStr) (l₁ : List StepKind) (a : RStr) (l₂ : List StepKind),
      parseSteps text = l₁ ++ StepKind.answer a :: l₂ → l₂ = []) ∧
    (∀ (text : RStr) (p : Nat) (X : RStr),
      earliestTag text = some (p, TagKind.answer) →
      extractTag text tagAnswerName = some X →
      parseSteps text = [StepKind.answer (trim X)]) := by
  constructor
  · intro text l₁ a l₂ h
    exact parseStepsAux_answer_last (text.length + 1) text l₁ a l₂ h
  · intro text p X h1 h2
    simp only [parseSteps, parseStepsAux, h1, h2]

/-- Claim C5 amended witness: the amended statement applied to a concrete
response whose answer marker is the earliest marker. -/
theorem C5_amended_witness :
    parseSteps (("<answer> hi </answer><think>x</think>").toList) =
      [StepKind.answer (trim ((" hi ").toList))] :=
  C5_amended_answer_terminates.2 (("<answer> hi </answer><think>x</think>").toList)
    0 ((" hi ").toList) (by decide) (by decide)

-- ── Claim C7 ─────────────────────────────────────────────────────────────────

/-- Tag-name literal for each recognised tag. -/
def nameOfTag : TagKind → RStr
  | TagKind.think => tagThink
  | TagKind.tool => tagTool
  | TagKind.answer => tagAnswerName

/-- The closing marker `</tag>` for each recognised tag. -/
def closeOfTag (tg : TagKind) : RStr :=
  '<' :: '/' :: nameOfTag tg ++ [ '>' ]

/-- Without a closing tag anywhere in the text, `extract_tag` fails. -/
theorem extractTag_none_of_noClose (text tag : RStr)
    (h : findSub text ('<' :: '/' :: tag ++ [ '>' ]) = none) :
    extractTag text tag = none := by
  unfold extractTag
  cases h1 : findSub text ('<' :: tag) with
  | none => rfl
  | some start =>
    cases h2 : findSub (text.drop start) [ '>' ] with
    | none => simp [h1, h2]
    | some rel =>
      simp [h1, h2, h]
      intro a ha
      simp only [List.cons_append] at h
      rw [h] at ha
      cases ha

/-- Claim C7: when the earliest recognised opening marker has no matching
closing tag anywhere in the remaining text, the scan stops and emits no
further steps — stated for every loop state (any fuel and remaining text),
so at top level a truncated response yields the partial prefix parsed before
the broken marker, not an error; with the spec's concrete example and a
concrete partial-prefix example. -/
theorem C7_missing_close_stops :
    (∀ (fuel : Nat) (text : RStr) (p : Nat) (tg : TagKind),
      earliestTag text = some (p, tg) →
      findSub text (closeOfTag tg) = none →
      parseStepsAux fuel text = []) ∧
    parseSteps (("<answer>no closing tag").toList) = [] ∧
    parseSteps (("<think>a</think><answer>oops").toList) = [StepKind.thought] := by
  refine ⟨?_, by decide, by decide⟩
  intro fuel text p tg h1 h2
  cases fuel with
  | zero => simp [parseStepsAux]
  | succ n =>
    cases tg with
    | think =>
      have hx : extractTag text tagThink = none := extractTag_none_of_noClose text tagThink h2
      simp [parseStepsAux, h1, hx]
    | tool =>
      have hx : extractTag text tagTool = none := extractTag_none_of_noClose text tagTool h2
      simp [parseStepsAux, h1, hx]
    | answer =>
      have hx : extractTag text tagAnswerName = none :=
        extractTag_none_of_noClose text tagAnswerName h2
      simp [parseStepsAux, h1, hx]

/-- Claim C7 witness: the universal part applied to the concrete truncated
text `<think>abc` at fuel 5. -/
theorem C7_witness :
    parseStepsAux 5 (("<think>abc").toList) = [] :=
  C7_missing_close_stops.1 5 (("<think>abc").toList) 0 TagKind.think (by decide) (by decide)

-- ── Claim C6 ─────────────────────────────────────────────────────────────────

/-- Dispatch routes the name `edit_file` to the edit tool. -/
theorem dispatch_editFile (fs : Fs) (env : CmdEnv) (input : RStr) :
    dispatch fs env (("edit_file").toList) input = editFileTool fs input := by
  unfold dispatch
  rw [if_neg (by decide), if_neg (by decide), if_pos rfl]

/-- Claim C6: the edit tool applied to a file containing `foo bar baz` with
search `foo bar` and replacement `replaced` yields `replaced baz`; only the
first occurrence is replaced (`x y x` with search `x` becomes `z y x`); and
for every filesystem and well-formed edit input whose search text is absent
from the file, the observation is the inline not-found string and the
filesystem is returned unchanged. -/
theorem C6_edit_file_first_occurrence :
    ((dispatch (fsOf [((("f.txt").toList), (("foo bar baz").toList))]) envTriv
        (("edit_file").toList) (("f.txt\n<<<\nfoo bar\n===\nreplaced\n>>>").toList)).1 =
      Except.ok (("[edit_file: applied edit to f.txt]").toList) ∧
     (dispatch (fsOf [((("f.txt").toList), (("foo bar baz").toList))]) envTriv
        (("edit_file").toList) (("f.txt\n<<<\nfoo bar\n===\nreplaced\n>>>").toList)).2.files =
      [((("f.txt").toList), (("replaced baz").toList))]) ∧
    ((dispatch (fsOf [((("g.txt").toList), (("x y x").toList))]) envTriv
        (("edit_file").toList) (("g.txt\n<<<\nx\n===\nz\n>>>").toList)).2.files =
      [((("g.txt").toList), (("z y x").toList))]) ∧
    (∀ (fs : Fs) (env : CmdEnv) (input p1 rest afterOpen : RStr) (mid : Nat) (content : RStr),
      splitn2Nl (trimStart input) = (p1, some rest) →
      stripPrefixStr rest (("<<<\n").toList) = some afterOpen →
      findSub afterOpen (("\n===\n").toList) = some mid →
      fs.files.lookup (trim p1) = some content →
      containsSub content (afterOpen.take mid) = false →
      dispatch fs env (("edit_file").toList) input =
        (Except.ok (("[edit_file error: search string not found in ").toList ++
          trim p1 ++ ("]").toList), fs)) := by
  refine ⟨⟨by decide, by decide⟩, by decide, ?_⟩
  intro fs env input p1 rest afterOpen mid content h1 h2 h3 h4 h5
  rw [dispatch_editFile]
  simp only [editFileTool, h1, h2, h3, h4, h5, Option.getD, Bool.false_eq_true, if_false]

/-- Claim C6 witness: the absent-search part applied to a concrete file and
input whose search text `zzz` does not occur in `hello`. -/
theorem C6_witness :
    dispatch (fsOf [((("h.txt").toList), (("hello").toList))]) envTriv
      (("edit_file").toList) (("h.txt\n<<<\nzzz\n===\nrep\n>>>").toList) =
      (Except.ok (("[edit_file error: search string not found in ").toList ++
        trim (("h.txt").toList) ++ ("]").toList),
       fsOf [((("h.txt").toList), (("hello").toList))]) :=
  C6_edit_file_first_occurrence.2.2 (fsOf [((("h.txt").toList), (("hello").toList))]) envTriv
    (("h.txt\n<<<\nzzz\n===\nrep\n>>>").toList) (("h.txt").toList)
    (("<<<\nzzz\n===\nrep\n>>>").toList) (("zzz\n===\nrep\n>>>").toList) 3
    (("hello").toList) (by decide) (by decide) (by decide) (by decide) (by decide)

-- ── Claim C8 ─────────────────────────────────────────────────────────────────

/-- The loop makes at most `fuel` model calls. -/
theorem runLoop_calls_le (oracle : Nat → Except RStr RStr)
    (disp : RStr → RStr → Except RStr RStr) :
    ∀ (fuel idx : Nat) (hist : List (RStr × RStr)),
      (runLoop oracle disp fuel idx hist).calls ≤ fuel := by
  intro fuel
  induction fuel with
  | zero => intro idx hist; simp [runLoop]
  | succ n ih =>
    intro idx hist
    simp only [runLoop]
    split
    · simp
    · split
      · split
        · simp
        · split
          · simp
          · simpa using Nat.succ_le_succ (ih _ _)
      · simpa using Nat.succ_le_succ (ih _ _)

/-- A model that only thinks: every response parses to a nonempty sequence
with no tool call or answer. -/
def thinkOnlyOracle (oracle : Nat → Except RStr RStr) : Prop :=
  ∀ i, ∃ s, oracle i = Except.ok s ∧ parseSteps s ≠ [] ∧ hasAction (parseSteps s) = false

/-- A think-only model drives every iteration through the nudge path, so the
loop burns exactly its fuel and ends exhausted with the notice and the
terminator as its final two events. -/
theorem runLoop_thinkOnly (oracle : Nat → Except RStr RStr)
    (disp : RStr → RStr → Except RStr RStr) (h : thinkOnlyOracle oracle) :
    ∀ (fuel idx : Nat) (hist : List (RStr × RStr)),
      ∃ (pre : List (Option RStr)) (hist2 : List (RStr × RStr)),
        runLoop oracle disp fuel idx hist =
          ⟨pre ++ [some maxStepsNotice, none], hist2, fuel, Outcome.exhausted⟩ := by
  intro fuel
  induction fuel with
  | zero =>
    intro idx hist
    exact ⟨[], hist, rfl⟩
  | succ n ih =>
    intro idx hist
    obtain ⟨s, hok, hne, hact⟩ := h idx
    have hresp : synthResp (oracle idx) = s := by rw [hok]; rfl
    have hsn : stepsAndNote s = some (parseSteps s, []) := by
      unfold stepsAndNote
      have hemp : (parseSteps s).isEmpty = false := by
        cases hps : parseSteps s with
        | nil => exact absurd hps hne
        | cons a l => rfl
      simp [hemp]
    obtain ⟨pre', hist', heq⟩ :=
      ih (idx + 1) ((hist ++ [(roleAssistant, s)]) ++ [(roleUser, nudgeMsg)])
    refine ⟨some (stepHeaderMsg (idx + 1)) :: some (thinkEvOf s) :: pre', hist', ?_⟩
    simp only [runLoop, hresp, hsn, hact, Bool.false_eq_true, if_false, heq]
    simp

/-- Claim C8: the run makes at most the configured budget of model
round-trips (and, being a total function, always terminates); with a model
that only ever thinks, it makes exactly `maxSteps` round-trips, ends
exhausted, and its final two events are the max-steps notice and the
terminator. -/
theorem C8_budget_bound_and_exhaustion :
    (∀ (maxSteps : Nat) (oracle : Nat → Except RStr RStr)
      (disp : RStr → RStr → Except RStr RStr) (task : RStr)
      (prior : List (RStr × RStr)),
      (runModel maxSteps oracle disp task prior).calls ≤ maxSteps) ∧
    (∀ (maxSteps : Nat) (oracle : Nat → Except RStr RStr)
      (disp : RStr → RStr → Except RStr RStr) (task : RStr)
      (prior : List (RStr × RStr)),
      thinkOnlyOracle oracle →
      (runModel maxSteps oracle disp task prior).calls = maxSteps ∧
      (runModel maxSteps oracle disp task prior).outcome = Outcome.exhausted ∧
      ∃ pre, (runModel maxSteps oracle disp task prior).events =
        pre ++ [some maxStepsNotice, none]) := by
  constructor
  · intro maxSteps oracle disp task prior
    exact runLoop_calls_le oracle disp maxSteps 0 _
  · intro maxSteps oracle disp task prior h
    obtain ⟨pre, hist2, heq⟩ := runLoop_thinkOnly oracle disp h maxSteps 0 _
    unfold runModel
    rw [heq]
    exact ⟨rfl, rfl, pre, rfl⟩

/-- Claim C8 witness: the bound and the exhaustion clause at a concrete
think-only model with a budget of 2. -/
theorem C8_witness :
    (runModel 2 (fun _ => Except.ok (("<think>hm</think>").toList)) dispReal
      (("task").toList) []).calls = 2 ∧
    (runModel 2 (fun _ => Except.ok (("<think>hm</think>").toList)) dispReal
      (("task").toList) []).outcome = Outcome.exhausted :=
  ⟨(C8_budget_bound_and_exhaustion.2 2 (fun _ => Except.ok (("<think>hm</think>").toList))
      dispReal (("task").toList) []
      (fun _ => ⟨(("<think>hm</think>").toList), rfl, by decide, by decide⟩)).1,
   (C8_budget_bound_and_exhaustion.2 2 (fun _ => Except.ok (("<think>hm</think>").toList))
      dispReal (("task").toList) []
      (fun _ => ⟨(("<think>hm</think>").toList), rfl, by decide, by decide⟩)).2.1⟩

-- ── Claim C9 ─────────────────────────────────────────────────────────────────

theorem countNone_nil : countNone [] = 0 := rfl

theorem countNone_cons_some (x : RStr) (l : List (Option RStr)) :
    countNone (some x :: l) = countNone l := by
  simp [countNone]

theorem countNone_append (l₁ l₂ : List (Option RStr)) :
    countNone (l₁ ++ l₂) = countNone l₁ + countNone l₂ := by
  simp [countNone, List.countP_append]

/-- The recovery notice carries no terminator. -/
theorem stepsAndNote_pre (resp : RStr) (steps : List StepKind) (pre : List (Option RStr))
    (h : stepsAndNote resp = some (steps, pre)) : countNone pre = 0 := by
  unfold stepsAndNote at h
  split at h
  · split at h
    · injection h with h1
      injection h1 with h2 h3
      rw [← h3]
      rfl
    · cases h
  · injection h with h1
    injection h1 with h2 h3
    rw [← h3]
    rfl

/-- A non-panicking walk emits the terminator exactly when it finished on an
Answer, and then exactly once. -/
theorem walkSteps_countNone (disp : RStr → RStr → Except RStr RStr) :
    ∀ (steps : List StepKind) (rem : RStr) (hist : List (RStr × RStr)),
      (walkSteps disp steps rem hist).panicked = false →
      countNone (walkSteps disp steps rem hist).events =
        (if (walkSteps disp steps rem hist).finished then 1 else 0) := by
  intro steps
  induction steps with
  | nil => intro rem hist _; rfl
  | cons st rest ih =>
    intro rem hist hp
    cases st with
    | thought =>
      cases hx : extractTag rem tagThink with
      | none =>
        simp only [walkSteps, hx] at hp ⊢
        exact ih _ _ hp
      | some inner =>
        simp only [walkSteps, hx] at hp ⊢
        rw [countNone_cons_some]
        exact ih _ _ hp
    | toolCall nm inp =>
      cases ht1 : truncateRust inp 120 with
      | none =>
        simp only [walkSteps, ht1] at hp
        simp at hp
      | some t1 =>
        cases hd : disp nm inp with
        | ok s =>
          cases ht2 : truncateRust s 800 with
          | none =>
            simp only [walkSteps, ht1, hd, ht2] at hp
            simp at hp
          | some t2 =>
            simp only [walkSteps, ht1, hd, ht2] at hp ⊢
            rw [countNone_cons_some, countNone_cons_some]
            exact ih _ _ hp
        | error e =>
          cases ht2 : truncateRust (("[error: ").toList ++ e ++ ("]").toList) 800 with
          | none =>
            simp only [walkSteps, ht1, hd, ht2] at hp
            simp at hp
          | some t2 =>
            simp only [walkSteps, ht1, hd, ht2] at hp ⊢
            rw [countNone_cons_some, countNone_cons_some]
            exact ih _ _ hp
    | answer a => rfl
    | observation t =>
      simp only [walkSteps] at hp ⊢
      exact ih _ _ hp

theorem runResultEvents (e : List (Option RStr)) (h : List (RStr × RStr)) (c : Nat)
    (o : Outcome) : (RunResult.mk e h c o).events = e := rfl

/-- On every non-panicking exit, the loop sends the terminator exactly once. -/
theorem runLoop_countNone (oracle : Nat → Except RStr RStr)
    (disp : RStr → RStr → Except RStr RStr) :
    ∀ (fuel idx : Nat) (hist : List (RStr × RStr)),
      (runLoop oracle disp fuel idx hist).outcome ≠ Outcome.panicked →
      countNone (runLoop oracle disp fuel idx hist).events = 1 := by
  intro fuel
  induction fuel with
  | zero => intro idx hist _; rfl
  | succ n ih =>
    intro idx hist hne
    simp only [runLoop] at hne ⊢
    split at hne
    · rfl
    · rename_i steps pre heq
      split at hne
      · rename_i hA
        split at hne
        · exact absurd rfl hne
        · rename_i hP
          split at hne
          · rename_i hF
            rw [if_pos hA, if_neg hP, if_pos hF, runResultEvents]
            rw [Bool.not_eq_true] at hP
            rw [countNone_append, countNone_cons_some, stepsAndNote_pre _ _ _ heq,
              walkSteps_countNone disp _ _ _ hP, hF]
            simp
          · rename_i hF
            rw [if_pos hA, if_neg hP, if_neg hF, runResultEvents]
            rw [Bool.not_eq_true] at hP
            rw [Bool.not_eq_true] at hF
            rw [countNone_append, countNone_append, countNone_cons_some,
              stepsAndNote_pre _ _ _ heq, walkSteps_countNone disp _ _ _ hP, hF]
            simpa using ih _ _ hne
      · rename_i hA
        rw [if_neg hA, runResultEvents]
        rw [countNone_append, countNone_cons_some, countNone_cons_some,
          stepsAndNote_pre _ _ _ heq]
        simpa using ih _ _ hne

/-- Claim C9: on every exit path the claim names — Answer completion, budget
exhaustion, raw passthrough, i.e. every non-panic outcome — the terminator
`None` is sent exactly once per run. -/
theorem C9_terminator_exactly_once :
    ∀ (maxSteps : Nat) (oracle : Nat → Except RStr RStr)
      (disp : RStr → RStr → Except RStr RStr) (task : RStr)
      (prior : List (RStr × RStr)),
      (runModel maxSteps oracle disp task prior).outcome ≠ Outcome.panicked →
      countNone (runModel maxSteps oracle disp task prior).events = 1 := by
  intro maxSteps oracle disp task prior h
  exact runLoop_countNone oracle disp maxSteps 0 _ h

/-- Claim C9 witness: a model that answers immediately sends the terminator
exactly once. -/
theorem C9_witness :
    countNone (runModel 3 (fun _ => Except.ok (("<answer>done</answer>").toList))
      dispReal (("task").toList) []).events = 1 :=
  C9_terminator_exactly_once 3 (fun _ => Except.ok (("<answer>done</answer>").toList))
    dispReal (("task").toList) [] (by decide)

-- ── Claim C10 ────────────────────────────────────────────────────────────────

/-- Every per-line token event is a `some`. -/
theorem lineToks_shape (v : Json) : ∃ tl : List RStr, lineToks v = tl.map Option.some := by
  unfold lineToks
  split
  · split
    · exact ⟨[], rfl⟩
    · rename_i delta _ _
      exact ⟨[delta], rfl⟩
  · split
    · split
      · exact ⟨[], rfl⟩
      · rename_i delta _ _
        exact ⟨[delta], rfl⟩
    · exact ⟨[], rfl⟩

/-- The multi-dialect line loop emits only tokens, with a single terminator
exactly when a `done` line stopped it. -/
theorem procLines_shape (parse : RStr → Option Json) :
    ∀ (lines : List RStr), ∃ toks : List RStr,
      procLines parse lines = (toks.map Option.some, false) ∨
      procLines parse lines = (toks.map Option.some ++ [none], true) := by
  intro lines
  induction lines with
  | nil => exact ⟨[], Or.inl rfl⟩
  | cons line rest ih =>
    obtain ⟨toks, hcase⟩ := ih
    cases hsp : stripPrefixStr line sseDataTag with
    | some d =>
      by_cases hdone : d = doneLit
      · refine ⟨toks, ?_⟩
        simpa only [procLines, hsp, hdone, if_pos rfl] using hcase
      · by_cases hemp : d = []
        · refine ⟨toks, ?_⟩
          simpa only [procLines, hsp, if_neg hdone, hemp, if_pos rfl] using hcase
        · cases hp : parse d with
          | none =>
            refine ⟨toks, ?_⟩
            simpa only [procLines, hsp, if_neg hdone, if_neg hemp, hp] using hcase
          | some v =>
            obtain ⟨tl, htl⟩ := lineToks_shape v
            by_cases hd2 : ((jasBool (jget v (("done").toList))).getD false) = true
            · refine ⟨tl, Or.inr ?_⟩
              simp only [procLines, hsp, if_neg hdone, if_neg hemp, hp, hd2, if_pos rfl,
                htl]
              simp
            · cases hcase with
              | inl h =>
                refine ⟨tl ++ toks, Or.inl ?_⟩
                simp only [procLines, hsp, if_neg hdone, if_neg hemp, hp, hd2,
                  Bool.false_eq_true, if_false, h, htl, List.map_append]
              | inr h =>
                refine ⟨tl ++ toks, Or.inr ?_⟩
                simp only [procLines, hsp, if_neg hdone, if_neg hemp, hp, hd2,
                  Bool.false_eq_true, if_false, h, htl, List.map_append,
                  List.append_assoc]
    | none =>
      by_cases hemp : line = []
      · refine ⟨toks, ?_⟩
        simpa only [procLines, hsp, hemp, if_pos rfl] using hcase
      · cases hp : parse line with
        | none =>
          refine ⟨toks, ?_⟩
          simpa only [procLines, hsp, if_neg hemp, hp] using hcase
        | some v =>
          obtain ⟨tl, htl⟩ := lineToks_shape v
          by_cases hd2 : ((jasBool (jget v (("done").toList))).getD false) = true
          · refine ⟨tl, Or.inr ?_⟩
            simp only [procLines, hsp, if_neg hemp, hp, hd2, if_pos rfl, htl]
            simp
          · cases hcase with
            | inl h =>
              refine ⟨tl ++ toks, Or.inl ?_⟩
              simp only [procLines, hsp, if_neg hemp, hp, hd2, Bool.false_eq_true,
                if_false, h, htl, List.map_append]
            | inr h =>
              refine ⟨tl ++ toks, Or.inr ?_⟩
              simp only [procLines, hsp, if_neg hemp, hp, hd2, Bool.false_eq_true,
                if_false, h, htl, List.map_append, List.append_assoc]

/-- The whole multi-dialect consumer emits `Some` tokens followed by exactly
one terminal `None`, whatever the mix of line shapes. -/
theorem streamConsume_shape (parse : RStr → Option Json) :
    ∀ (chunks : List RStr), ∃ toks : List RStr,
      streamConsume parse chunks = toks.map Option.some ++ [none] := by
  intro chunks
  induction chunks with
  | nil => exact ⟨[], rfl⟩
  | cons c rest ih =>
    obtain ⟨toksR, hR⟩ := ih
    obtain ⟨toksC, hC⟩ := procLines_shape parse (rustLines c)
    cases hC with
    | inl h =>
      refine ⟨toksC ++ toksR, ?_⟩
      simp only [streamConsume, h, Bool.false_eq_true, if_false, hR, List.map_append,
        List.append_assoc]
    | inr h =>
      refine ⟨toksC, ?_⟩
      simp only [streamConsume, h, if_pos rfl]
      simp

/-- The Anthropic line loop emits only tokens. -/
theorem procLinesAnthropic_shape (parse : RStr → Option Json) :
    ∀ (lines : List RStr), ∃ toks : List RStr,
      procLinesAnthropic parse lines = toks.map Option.some := by
  intro lines
  induction lines with
  | nil => exact ⟨[], rfl⟩
  | cons line rest ih =>
    obtain ⟨toks, h⟩ := ih
    cases hsp : stripPrefixStr line sseDataTag with
    | none =>
      refine ⟨toks, ?_⟩
      simpa only [procLinesAnthropic, hsp] using h
    | some d =>
      by_cases hdone : d = doneLit
      · exact ⟨[], by simp only [procLinesAnthropic, hsp, hdone, if_pos rfl]; rfl⟩
      · cases hp : parse d with
        | none =>
          refine ⟨toks, ?_⟩
          simpa only [procLinesAnthropic, hsp, if_neg hdone, hp] using h
        | some v =>
          cases hj : jasStr (jget (jget v (("delta").toList)) (("text").toList)) with
          | none =>
            refine ⟨toks, ?_⟩
            simpa only [procLinesAnthropic, hsp, if_neg hdone, hp, hj,
              List.nil_append] using h
          | some delta =>
            refine ⟨delta :: toks, ?_⟩
            simp only [procLinesAnthropic, hsp, if_neg hdone, hp, hj, h, List.map]
            rfl

/-- The Anthropic consumer also emits `Some` tokens then one `None`. -/
theorem streamConsumeAnthropic_shape (parse : RStr → Option Json) :
    ∀ (chunks : List RStr), ∃ toks : List RStr,
      streamConsumeAnthropic parse chunks = toks.map Option.some ++ [none] := by
  intro chunks
  induction chunks with
  | nil => exact ⟨[], rfl⟩
  | cons c rest ih =>
    obtain ⟨toksR, hR⟩ := ih
    obtain ⟨toksC, hC⟩ := procLinesAnthropic_shape parse (rustLines c)
    refine ⟨toksC ++ toksR, ?_⟩
    simp only [streamConsumeAnthropic, hC, hR, List.map_append, List.append_assoc]

/-- Stripping a prefix that is literally there yields the remainder. -/
theorem stripPrefix_of_append (p s : RStr) : stripPrefixStr (p ++ s) p = some s := by
  unfold stripPrefixStr
  rw [if_pos (by rw [ List.isPrefixOf_iff_prefix]; exact List.prefix_append p s),
    List.drop_left]

/-- A bare line that is not valid JSON is skipped. -/
theorem procLines_skip_bare (parse : RStr → Option Json) (d : RStr) (rest : List RStr)
    (h1 : stripPrefixStr d sseDataTag = none) (h2 : parse d = none) :
    procLines parse (d :: rest) = procLines parse rest := by
  by_cases he : d = []
  · subst he
    simp [procLines, h1]
  · simp [procLines, h1, he, h2]

/-- A `data: `-prefixed line whose payload is not valid JSON is skipped. -/
theorem procLines_skip_data (parse : RStr → Option Json) (d : RStr) (rest : List RStr)
    (h2 : parse d = none) (h3 : d ≠ doneLit) :
    procLines parse ((sseDataTag ++ d) :: rest) = procLines parse rest := by
  have hsp := stripPrefix_of_append sseDataTag d
  by_cases he : d = []
  · subst he
    have hself : stripPrefixStr sseDataTag sseDataTag = some [] := by decide
    simp [procLines, hself, h3]
  · simp [procLines, hsp, h3, he, h2]

/-- A JSON value of the OpenAI SSE delta shape carrying `Hel`. -/
def jsonA : Json :=
  Json.jobj [((("choices").toList),
    Json.jarr [Json.jobj [((("delta").toList),
      Json.jobj [((("content").toList), Json.jstr (("Hel").toList))])]])]

/-- A JSON value of the Ollama NDJSON shape carrying `lo` and `done: true`. -/
def jsonB : Json :=
  Json.jobj [((("message").toList),
    Json.jobj [((("content").toList), Json.jstr (("lo").toList))]),
   ((("done").toList), Json.jbool true)]

/-- A JSON value of the Anthropic SSE shape carrying `Hi`. -/
def jsonC : Json :=
  Json.jobj [((("delta").toList),
    Json.jobj [((("text").toList), Json.jstr (("Hi").toList))])]

/-- A concrete external JSON parser recognising the three payloads. -/
def parseEx (s : RStr) : Option Json :=
  if s = ("A").toList then some jsonA
  else if s = ("B").toList then some jsonB
  else if s = ("C").toList then some jsonC
  else none

/-- Claim C10: both streaming consumers emit a uniform `Some token`-then-one-
`None` sequence for every parser and stream; non-JSON lines (bare or SSE) are
skipped without affecting later lines; and a concrete mixed-dialect stream —
an SSE delta line, a non-JSON line, a `[DONE]` sentinel, and an NDJSON
`done: true` line — produces exactly the two tokens and one terminator. -/
theorem C10_stream_normalization :
    (∀ (parse : RStr → Option Json) (chunks : List RStr), ∃ toks : List RStr,
      streamConsume parse chunks = toks.map Option.some ++ [none]) ∧
    (∀ (parse : RStr → Option Json) (chunks : List RStr), ∃ toks : List RStr,
      streamConsumeAnthropic parse chunks = toks.map Option.some ++ [none]) ∧
    (∀ (parse : RStr → Option Json) (d : RStr) (rest : List RStr),
      stripPrefixStr d sseDataTag = none → parse d = none →
      procLines parse (d :: rest) = procLines parse rest) ∧
    (∀ (parse : RStr → Option Json) (d : RStr) (rest : List RStr),
      parse d = none → d ≠ doneLit →
      procLines parse ((sseDataTag ++ d) :: rest) = procLines parse rest) ∧
    streamConsume parseEx
      [("data: A\nnotjson\n").toList, ("data: [DONE]\nB\n").toList] =
      [some (("Hel").toList), some (("lo").toList), none] ∧
    streamConsumeAnthropic parseEx [("data: C\ngarbage\n").toList] =
      [some (("Hi").toList), none] := by
  exact ⟨streamConsume_shape, streamConsumeAnthropic_shape, procLines_skip_bare,
    procLines_skip_data, by decide, by decide⟩

/-- Claim C10 witness: the skip clauses applied to concrete non-JSON lines. -/
theorem C10_witness :
    procLines parseEx [("notjson").toList, ("B").toList] =
      procLines parseEx [("B").toList] ∧
    procLines parseEx [("data: ").toList ++ ("nope").toList, ("B").toList] =
      procLines parseEx [("B").toList] :=
  ⟨C10_stream_normalization.2.2.1 parseEx (("notjson").toList) [("B").toList]
      (by decide) (by rfl),
   C10_stream_normalization.2.2.2.1 parseEx (("nope").toList) [("B").toList]
      (by rfl) (by decide)⟩

end QaiSpec
